import Mathlib

/-!
Shallow embedding of the exploration-recommendation batch pipeline from
`core/jobs/batch_jobs/exp_recommendation_computation_jobs.py`.

The pipeline loads all exploration summary models, compares every reference
model against the full broadcast set (`ComputeSimilarity.process`), groups the
emitted `(exp_id, similarity-dict)` pairs by key, stable-sorts each group by
descending similarity score, truncates to `MAX_RECOMMENDATIONS`, builds one
`ExplorationRecommendationsModel` per group, writes the models, and reports
`SUCCESS n` only when `n > 0`.

Similarity scores are modelled as rationals (the pipeline only compares and
sorts them).  The similarity scorer `recommendations_services.get_item_similarity`
is an external collaborator and is passed in as a function parameter; a
fallible variant (`Except`) models a scorer that can raise.
-/

namespace Oppia

/-- Maximum number of recommendations stored per exploration
(`MAX_RECOMMENDATIONS = 10` in the source). -/
def MAX_RECOMMENDATIONS : Nat := 10

/-- Threshold below which similarity scores are discarded
(`SIMILARITY_SCORE_THRESHOLD = 3.0` in the source). -/
def SIMILARITY_SCORE_THRESHOLD : ℚ := 3

/-- An exploration summary model: a unique string id plus descriptive content
(collapsed to a single `Nat` payload; the pipeline itself only reads `id`,
the scorer may read everything). -/
structure ExpSummaryModel where
  id : String
  data : Nat
deriving DecidableEq, Repr

/-- The dictionary emitted per qualifying candidate:
`{'similarity_score': ..., 'exp_id': ...}`. -/
structure SimilarityDict where
  similarity_score : ℚ
  exp_id : String
deriving DecidableEq, Repr

/-- The persisted recommendation model: keyed by the reference exploration id,
holding the ordered recommended exploration ids. -/
structure ExplorationRecommendationsModel where
  id : String
  recommended_exploration_ids : List String
deriving DecidableEq, Repr

/-- A job run result (only `stdout` is used by this job). -/
structure JobRunResult where
  stdout : String
deriving DecidableEq, Repr

/-- `ComputeSimilarity.process`: for one reference model and the broadcast list
of all models, skip candidates whose id equals the reference id, score the
rest, and yield `(ref.id, dict)` for every candidate whose score reaches the
threshold, in the order the candidates appear. -/
def ComputeSimilarity.process
    (get_item_similarity : ExpSummaryModel → ExpSummaryModel → ℚ)
    (ref_exp_summary_model : ExpSummaryModel)
    (compared_exp_summary_models : List ExpSummaryModel) :
    List (String × SimilarityDict) :=
  compared_exp_summary_models.filterMap fun compared_exp_summary_model =>
    if compared_exp_summary_model.id = ref_exp_summary_model.id then
      none
    else
      let similarity_score :=
        get_item_similarity ref_exp_summary_model compared_exp_summary_model
      if SIMILARITY_SCORE_THRESHOLD ≤ similarity_score then
        some (ref_exp_summary_model.id,
          { similarity_score := similarity_score,
            exp_id := compared_exp_summary_model.id })
      else
        none

/-- The comparison used by `sorted(..., reverse=True, key=similarity_score)`:
descending order on the similarity score. -/
def descSimilarity (a b : SimilarityDict) : Prop :=
  b.similarity_score ≤ a.similarity_score

instance : DecidableRel descSimilarity := fun a b =>
  inferInstanceAs (Decidable (b.similarity_score ≤ a.similarity_score))

instance : IsTotal SimilarityDict descSimilarity :=
  ⟨fun a b => le_total b.similarity_score a.similarity_score⟩

instance : IsTrans SimilarityDict descSimilarity :=
  ⟨fun _ _ _ hab hbc => le_trans hbc hab⟩

/-- `_sort_and_slice_similarities`, generalised over the slice length (the
source hard-codes `MAX_RECOMMENDATIONS`; the design notes call for the
constant to be a parameter).  Stable-sorts the group's dictionaries by
descending score, projects to the exploration ids, and keeps the first
`maxRecs`.  Python's `sorted` is a stable sort; `List.insertionSort` is also
stable (an earlier element precedes every later element it ties with), and a
stable sort's output is uniquely determined, so the two agree. -/
def sortAndSliceSimilaritiesWith (maxRecs : Nat)
    (similarities : List SimilarityDict) : List String :=
  let sorted_similarities := similarities.insertionSort descSimilarity
  (sorted_similarities.map (fun item => item.exp_id)).take maxRecs

/-- `ComputeExplorationRecommendationsJob._sort_and_slice_similarities`:
the source's version, slicing at `MAX_RECOMMENDATIONS`. -/
def ComputeExplorationRecommendationsJob.sort_and_slice_similarities
    (similarities : List SimilarityDict) : List String :=
  sortAndSliceSimilaritiesWith MAX_RECOMMENDATIONS similarities

/-- `ComputeExplorationRecommendationsJob._create_recommendation`: builds the
recommendation model keyed by the exploration id. -/
def ComputeExplorationRecommendationsJob.create_recommendation
    (exp_id : String) (recommended_exp_ids : List String) :
    ExplorationRecommendationsModel :=
  { id := exp_id, recommended_exploration_ids := recommended_exp_ids }

/-- Keys in order of first occurrence, skipping keys already seen: the key
order of a deterministic `GroupByKey`. -/
def dedupKeysAux (seen : List String) : List String → List String
  | [] => []
  | k :: rest =>
    if k ∈ seen then dedupKeysAux seen rest
    else k :: dedupKeysAux (k :: seen) rest

/-- Deterministic model of `beam.GroupByKey`: one output pair per distinct key
(in order of first occurrence), carrying that key's values in emission
order. -/
def groupByKey {β : Type} (pairs : List (String × β)) :
    List (String × List β) :=
  (dedupKeysAux [] (pairs.map Prod.fst)).map fun k =>
    (k, (pairs.filter (fun p => p.1 = k)).map Prod.snd)

/-- The flattened output of running `ComputeSimilarity` over every model with
the full model list as broadcast side-input (`beam.ParDo` + `AsIter`). -/
def allSimilarityPairs
    (get_item_similarity : ExpSummaryModel → ExpSummaryModel → ℚ)
    (models : List ExpSummaryModel) : List (String × SimilarityDict) :=
  (models.map fun ref =>
    ComputeSimilarity.process get_item_similarity ref models).flatten

/-- The collection `exp_recommendations_models` built by
`ComputeExplorationRecommendationsJob.run`, with the slice length exposed:
compute similarities, group by exploration id, sort-and-slice each group,
create one recommendation model per group. -/
def runModelsWith (maxRecs : Nat)
    (get_item_similarity : ExpSummaryModel → ExpSummaryModel → ℚ)
    (models : List ExpSummaryModel) : List ExplorationRecommendationsModel :=
  ((groupByKey (allSimilarityPairs get_item_similarity models)).map
      (fun g => (g.1, sortAndSliceSimilaritiesWith maxRecs g.2))).map
    fun g => ComputeExplorationRecommendationsJob.create_recommendation g.1 g.2

/-- The recommendation models produced by the job as written (slice length
`MAX_RECOMMENDATIONS`). -/
def runModels
    (get_item_similarity : ExpSummaryModel → ExpSummaryModel → ℚ)
    (models : List ExpSummaryModel) : List ExplorationRecommendationsModel :=
  runModelsWith MAX_RECOMMENDATIONS get_item_similarity models

/-- `ComputeExplorationRecommendationsJob.run`'s result collection: count the
new models (`Count.Globally` yields the single count), keep it only when
positive, and map it to a `SUCCESS n` result. -/
def ComputeExplorationRecommendationsJob.run
    (get_item_similarity : ExpSummaryModel → ExpSummaryModel → ℚ)
    (models : List ExpSummaryModel) : List JobRunResult :=
  let exp_recommendations_models := runModels get_item_similarity models
  (([exp_recommendations_models.length].filter fun x => 0 < x).map
    fun x => { stdout := "SUCCESS " ++ toString x : JobRunResult })

/-- Datastore update of a single recommendation model: an upsert keyed by
`id`, replacing any previous list wholesale. -/
def ExplorationRecommendationsModel.put
    (m : ExplorationRecommendationsModel)
    (store : String → Option (List String)) : String → Option (List String) :=
  fun k => if k = m.id then some m.recommended_exploration_ids else store k

/-- `ndb_io.PutModels`: bulk-upsert every produced model into the store. -/
def putModels (ms : List ExplorationRecommendationsModel)
    (store : String → Option (List String)) : String → Option (List String) :=
  ms.foldl (fun st m => m.put st) store

/-- Effectful map over a list that stops at the first error: how a pipeline
stage applies a fallible step to each element. -/
def mapExcept {ε α β : Type} (f : α → Except ε β) : List α → Except ε (List β)
  | [] => Except.ok []
  | x :: xs =>
    match f x with
    | Except.error e => Except.error e
    | Except.ok b =>
      match mapExcept f xs with
      | Except.error e => Except.error e
      | Except.ok bs => Except.ok (b :: bs)

/-- `ComputeSimilarity.process` with a fallible scorer: the source wraps the
scorer call in no handler, so an exception raised for any scored pair aborts
the loop and propagates. -/
def ComputeSimilarity.processE {ε : Type}
    (get_item_similarity : ExpSummaryModel → ExpSummaryModel → Except ε ℚ)
    (ref_exp_summary_model : ExpSummaryModel) :
    List ExpSummaryModel → Except ε (List (String × SimilarityDict))
  | [] => Except.ok []
  | compared :: rest =>
    if compared.id = ref_exp_summary_model.id then
      ComputeSimilarity.processE get_item_similarity ref_exp_summary_model rest
    else
      match get_item_similarity ref_exp_summary_model compared with
      | Except.error e => Except.error e
      | Except.ok similarity_score =>
        match
          ComputeSimilarity.processE get_item_similarity
            ref_exp_summary_model rest with
        | Except.error e => Except.error e
        | Except.ok tail =>
          Except.ok
            (if SIMILARITY_SCORE_THRESHOLD ≤ similarity_score then
              (ref_exp_summary_model.id,
                { similarity_score := similarity_score,
                  exp_id := compared.id }) :: tail
            else tail)

/-- The produced recommendation models when the scorer may raise: any scorer
exception propagates out of the comparison stage and fails the run. -/
def runModelsE {ε : Type}
    (get_item_similarity : ExpSummaryModel → ExpSummaryModel → Except ε ℚ)
    (models : List ExpSummaryModel) :
    Except ε (List ExplorationRecommendationsModel) :=
  match
    mapExcept
      (fun ref =>
        ComputeSimilarity.processE get_item_similarity ref models)
      models with
  | Except.error e => Except.error e
  | Except.ok outs =>
    Except.ok
      (((groupByKey outs.flatten).map
          (fun g =>
            (g.1,
              ComputeExplorationRecommendationsJob.sort_and_slice_similarities
                g.2))).map
        fun g =>
          ComputeExplorationRecommendationsJob.create_recommendation g.1 g.2)

/-- The job's reported result when the scorer may raise: a propagated failure,
or the `SUCCESS n` collection computed from the produced models. -/
def runE {ε : Type}
    (get_item_similarity : ExpSummaryModel → ExpSummaryModel → Except ε ℚ)
    (models : List ExpSummaryModel) : Except ε (List JobRunResult) :=
  match runModelsE get_item_similarity models with
  | Except.error e => Except.error e
  | Except.ok recs =>
    Except.ok
      (([recs.length].filter fun x => 0 < x).map
        fun x => { stdout := "SUCCESS " ++ toString x : JobRunResult })

/-- The full (untruncated) aggregator output for one reference model: every
qualifying candidate's id, stable-sorted by descending similarity score.  The
reference's recommendation list is the `MAX_RECOMMENDATIONS`-prefix of this
list, so a candidate present here is "dropped by the top-K truncation"
exactly when it falls outside that prefix. -/
def fullSortedCandidateIds
    (get_item_similarity : ExpSummaryModel → ExpSummaryModel → ℚ)
    (models : List ExpSummaryModel) (ref : ExpSummaryModel) : List String :=
  (((ComputeSimilarity.process get_item_similarity ref models).map
      Prod.snd).insertionSort descSimilarity).map fun d => d.exp_id

/-! ### Concrete fixtures used by the scenario claims and by witnesses -/

/-- The snapshot `{A, B, C, D}` from the spec's concrete scenario (payloads are
arbitrary distinct values). -/
def itemsABCD : List ExpSummaryModel :=
  [{ id := "A", data := 0 }, { id := "B", data := 1 },
   { id := "C", data := 2 }, { id := "D", data := 3 }]

/-- The scenario scorer: `score(A,B)=5`, `score(A,C)=2`, `score(A,D)=6`, every
other ordered pair scores `0` (below threshold). -/
def scoreABCD (x y : ExpSummaryModel) : ℚ :=
  if x.id = "A" ∧ y.id = "B" then 5
  else if x.id = "A" ∧ y.id = "C" then 2
  else if x.id = "A" ∧ y.id = "D" then 6
  else 0

/-- A fallible scorer that raises exactly on the ordered pair `(A, B)` and
returns a below-threshold score everywhere else. -/
def scoreRaisingOnAB (x y : ExpSummaryModel) : Except String ℚ :=
  if x.id = "A" ∧ y.id = "B" then Except.error "scorer raised"
  else Except.ok 0

/-! ### Helper lemmas about the comparison stage -/

/-- Closed form of `ComputeSimilarity.process`: keep exactly the candidates
with a different id and a qualifying score, in input order, and emit the
keyed dictionary for each. -/
theorem process_eq (s : ExpSummaryModel → ExpSummaryModel → ℚ)
    (ref : ExpSummaryModel) (l : List ExpSummaryModel) :
    ComputeSimilarity.process s ref l =
      (l.filter fun c =>
          decide (c.id ≠ ref.id ∧ SIMILARITY_SCORE_THRESHOLD ≤ s ref c)).map
        fun c => (ref.id, { similarity_score := s ref c, exp_id := c.id }) := by
  induction l with
  | nil => rfl
  | cons c t ih =>
    by_cases h1 : c.id = ref.id
    · simpa [ComputeSimilarity.process, List.filterMap_cons, List.filter_cons,
        h1] using ih
    · by_cases h2 : SIMILARITY_SCORE_THRESHOLD ≤ s ref c
      · simpa [ComputeSimilarity.process, List.filterMap_cons, List.filter_cons,
          h1, h2] using ih
      · simpa [ComputeSimilarity.process, List.filterMap_cons, List.filter_cons,
          h1, h2] using ih

/-- Every pair emitted by `process` is keyed by the reference id. -/
theorem process_fst {s : ExpSummaryModel → ExpSummaryModel → ℚ}
    {ref : ExpSummaryModel} {l : List ExpSummaryModel}
    {p : String × SimilarityDict}
    (hp : p ∈ ComputeSimilarity.process s ref l) : p.1 = ref.id := by
  rw [process_eq] at hp
  obtain ⟨c, -, rfl⟩ := List.mem_map.mp hp
  rfl

/-- Every emitted dictionary records the id of some candidate from the input
whose id differs from the reference id and whose score reaches the
threshold. -/
theorem process_snd_mem {s : ExpSummaryModel → ExpSummaryModel → ℚ}
    {ref : ExpSummaryModel} {l : List ExpSummaryModel}
    {p : String × SimilarityDict}
    (hp : p ∈ ComputeSimilarity.process s ref l) :
    ∃ c ∈ l, c.id ≠ ref.id ∧ SIMILARITY_SCORE_THRESHOLD ≤ s ref c ∧
      p.2.exp_id = c.id ∧ p.2.similarity_score = s ref c := by
  rw [process_eq] at hp
  obtain ⟨c, hc, rfl⟩ := List.mem_map.mp hp
  have hc' := List.of_mem_filter hc
  simp only [decide_eq_true_eq] at hc'
  exact ⟨c, List.mem_of_mem_filter hc, hc'.1, hc'.2, rfl, rfl⟩

/-- `process` emits nothing exactly when no candidate qualifies. -/
theorem process_eq_nil_iff (s : ExpSummaryModel → ExpSummaryModel → ℚ)
    (ref : ExpSummaryModel) (l : List ExpSummaryModel) :
    ComputeSimilarity.process s ref l = [] ↔
      ∀ c ∈ l, c.id ≠ ref.id → s ref c < SIMILARITY_SCORE_THRESHOLD := by
  rw [process_eq, List.map_eq_nil_iff, List.filter_eq_nil_iff]
  simp only [decide_eq_true_eq, not_and, not_le]

/-! ### Helper lemmas about the grouping stage -/

/-- Keys already seen are skipped entirely. -/
theorem dedupKeysAux_append_of_mem {seen : List String} :
    ∀ {l : List String} (t : List String), (∀ x ∈ l, x ∈ seen) →
      dedupKeysAux seen (l ++ t) = dedupKeysAux seen t
  | [], _, _ => rfl
  | x :: l, t, h => by
    have hx : x ∈ seen := h x (List.mem_cons_self x l)
    simp only [List.cons_append, dedupKeysAux, if_pos hx]
    exact dedupKeysAux_append_of_mem t fun y hy => h y (List.mem_cons_of_mem x hy)

/-- A nonempty run of one unseen key contributes that key once. -/
theorem dedupKeysAux_append_const {seen : List String} {k : String}
    {l : List String} (t : List String) (h : ∀ x ∈ l, x = k) (hk : k ∉ seen)
    (hne : l ≠ []) :
    dedupKeysAux seen (l ++ t) = k :: dedupKeysAux (k :: seen) t := by
  cases l with
  | nil => exact absurd rfl hne
  | cons x l =>
    have hx : x = k := h x (List.mem_cons_self x l)
    subst hx
    simp only [List.cons_append, dedupKeysAux, if_neg hk]
    congr 1
    exact dedupKeysAux_append_of_mem t fun y hy =>
      (h y (List.mem_cons_of_mem x hy)) ▸ List.mem_cons_self y _

/-- Unfolding membership in a deterministic group: every value grouped under a
key was emitted with that key. -/
theorem mem_of_mem_groupByKey {β : Type} {pairs : List (String × β)}
    {k : String} {vs : List β} (hg : (k, vs) ∈ groupByKey pairs) :
    ∀ v ∈ vs, (k, v) ∈ pairs := by
  intro v hv
  obtain ⟨k', -, hk'⟩ := List.mem_map.mp hg
  rw [Prod.mk.injEq] at hk'
  rw [← hk'.2] at hv
  obtain ⟨p, hp, hpv⟩ := List.mem_map.mp hv
  have hp' := List.of_mem_filter hp
  simp only [decide_eq_true_eq] at hp'
  have hpe : p = (k, v) := Prod.ext (hp'.trans hk'.1) hpv
  exact hpe ▸ List.mem_of_mem_filter hp

/-- Every pair in the flattened comparison output comes from the comparison of
some reference model in the list. -/
theorem mem_blocks {s : ExpSummaryModel → ExpSummaryModel → ℚ}
    {all refs : List ExpSummaryModel} {p : String × SimilarityDict}
    (hp : p ∈ (refs.map fun ref =>
      ComputeSimilarity.process s ref all).flatten) :
    ∃ r ∈ refs, p ∈ ComputeSimilarity.process s r all := by
  obtain ⟨L, hL, hpL⟩ := List.mem_flatten.mp hp
  obtain ⟨r, hr, rfl⟩ := List.mem_map.mp hL
  exact ⟨r, hr, hpL⟩

/-- With pairwise-distinct model ids, the deduplicated key sequence of the
flattened comparison output lists, in order, the ids of the reference models
whose comparison output is nonempty (generalised over an initial `seen` set
disjoint from the reference ids). -/
theorem dedupKeys_blocks (s : ExpSummaryModel → ExpSummaryModel → ℚ)
    (all : List ExpSummaryModel) :
    ∀ (refs : List ExpSummaryModel) (seen : List String),
      (∀ r ∈ refs, r.id ∉ seen) → (refs.map (·.id)).Nodup →
      dedupKeysAux seen
          (((refs.map fun ref =>
            ComputeSimilarity.process s ref all).flatten).map Prod.fst)
        = ((refs.filter fun ref =>
            !(ComputeSimilarity.process s ref all).isEmpty).map (·.id))
  | [], _, _, _ => rfl
  | ref :: rest, seen, hseen, hnd => by
    have hnd' : (∀ x ∈ rest, ¬x.id = ref.id) ∧
        (rest.map (fun x => x.id)).Nodup := by simpa using hnd
    have hBfst : ∀ x ∈ (ComputeSimilarity.process s ref all).map Prod.fst,
        x = ref.id := by
      intro x hx
      obtain ⟨p, hp, rfl⟩ := List.mem_map.mp hx
      exact process_fst hp
    by_cases hB : ComputeSimilarity.process s ref all = []
    · simp only [List.map_cons, List.flatten_cons, List.map_append, hB,
        List.map_nil, List.nil_append, List.filter_cons, List.isEmpty_nil,
        Bool.not_true]
      rw [if_neg (by simp)]
      exact dedupKeys_blocks s all rest seen
        (fun r hr => hseen r (List.mem_cons_of_mem ref hr)) hnd'.2
    · simp only [List.map_cons, List.flatten_cons, List.map_append,
        List.filter_cons]
      rw [dedupKeysAux_append_const _ hBfst
        (hseen ref (List.mem_cons_self ref rest))
        (by simpa using hB)]
      rw [if_pos (by simp [List.isEmpty_iff, hB])]
      simp only [List.map_cons]
      congr 1
      refine dedupKeys_blocks s all rest (ref.id :: seen) ?_ hnd'.2
      intro r hr
      simp only [List.mem_cons]
      push_neg
      exact ⟨hnd'.1 r hr, hseen r (List.mem_cons_of_mem ref hr)⟩

/-- With pairwise-distinct model ids, filtering the flattened comparison
output to one reference model's id recovers exactly that model's comparison
output. -/
theorem filter_blocks (s : ExpSummaryModel → ExpSummaryModel → ℚ)
    (all : List ExpSummaryModel) :
    ∀ (refs : List ExpSummaryModel) (target : ExpSummaryModel),
      target ∈ refs → (refs.map (·.id)).Nodup →
      ((refs.map fun ref =>
          ComputeSimilarity.process s ref all).flatten).filter
          (fun p => p.1 = target.id)
        = ComputeSimilarity.process s target all
  | [], _, ht, _ => absurd ht (List.not_mem_nil _)
  | r :: rest, target, ht, hnd => by
    have hnd' : (∀ x ∈ rest, ¬x.id = r.id) ∧
        (rest.map (fun x => x.id)).Nodup := by simpa using hnd
    simp only [List.map_cons, List.flatten_cons, List.filter_append]
    rcases List.mem_cons.mp ht with hrt | htrest
    · have h1 : (ComputeSimilarity.process s r all).filter
          (fun p => p.1 = target.id) = ComputeSimilarity.process s r all :=
        List.filter_eq_self.mpr fun p hp => by
          simp [process_fst hp, hrt]
      have h2 : ((rest.map fun ref =>
          ComputeSimilarity.process s ref all).flatten).filter
          (fun p => p.1 = target.id) = [] := by
        refine List.filter_eq_nil_iff.mpr fun p hp => ?_
        obtain ⟨r', hr', hp'⟩ := mem_blocks hp
        have hfst : p.1 = r'.id := process_fst hp'
        simp only [hfst, decide_eq_true_eq]
        intro hre
        exact hnd'.1 r' hr' (hre.trans (congrArg ExpSummaryModel.id hrt))
      rw [h1, h2, List.append_nil, hrt]
    · have h1 : (ComputeSimilarity.process s r all).filter
          (fun p => p.1 = target.id) = [] := by
        refine List.filter_eq_nil_iff.mpr fun p hp => ?_
        have hfst : p.1 = r.id := process_fst hp
        simp only [hfst, decide_eq_true_eq]
        intro hre
        exact hnd'.1 target htrest hre.symm
      rw [h1, List.nil_append]
      exact filter_blocks s all rest target htrest hnd'.2

/-- With pairwise-distinct model ids, the grouped comparison output has one
group per reference model with nonempty comparison output, in model order,
keyed by that model's id and carrying its emitted dictionaries in emission
order. -/
theorem groupByKey_allSimilarityPairs
    (s : ExpSummaryModel → ExpSummaryModel → ℚ)
    (models : List ExpSummaryModel) (hnd : (models.map (·.id)).Nodup) :
    groupByKey (allSimilarityPairs s models)
      = (models.filter fun ref =>
          !(ComputeSimilarity.process s ref models).isEmpty).map
          fun ref =>
            (ref.id, (ComputeSimilarity.process s ref models).map Prod.snd) := by
  unfold groupByKey allSimilarityPairs
  rw [dedupKeys_blocks s models models [] (by simp) hnd, List.map_map]
  refine List.map_congr_left fun ref href => ?_
  have htarget : ref ∈ models := List.mem_of_mem_filter href
  simp only [Function.comp_apply]
  rw [filter_blocks s models models ref htarget hnd]

/-- Unfolding membership in the produced recommendation-model collection. -/
theorem mem_runModelsWith {maxRecs : Nat}
    {s : ExpSummaryModel → ExpSummaryModel → ℚ}
    {models : List ExpSummaryModel} {r : ExplorationRecommendationsModel} :
    r ∈ runModelsWith maxRecs s models ↔
      ∃ g ∈ groupByKey (allSimilarityPairs s models),
        r = { id := g.1,
              recommended_exploration_ids :=
                sortAndSliceSimilaritiesWith maxRecs g.2 } := by
  simp only [runModelsWith, List.map_map, List.mem_map, Function.comp_apply,
    ComputeExplorationRecommendationsJob.create_recommendation]
  constructor
  · rintro ⟨g, hg, rfl⟩; exact ⟨g, hg, rfl⟩
  · rintro ⟨g, hg, rfl⟩; exact ⟨g, hg, rfl⟩

/-- Stability of the descending sort, stated per score value: the
dictionaries holding any fixed score appear in the sorted list exactly in
their original (emission) order. -/
theorem insertionSort_filter_score (sims : List SimilarityDict) (q : ℚ) :
    (sims.insertionSort descSimilarity).filter
        (fun d => d.similarity_score = q)
      = sims.filter (fun d => d.similarity_score = q) := by
  have hpw : (sims.filter (fun d => d.similarity_score = q)).Pairwise
      descSimilarity := by
    refine List.pairwise_of_forall_mem_list fun a ha b hb => ?_
    have ha' := List.of_mem_filter ha
    have hb' := List.of_mem_filter hb
    simp only [decide_eq_true_eq] at ha' hb'
    simp [descSimilarity, ha', hb']
  have hsub : List.Sublist (sims.filter (fun d => d.similarity_score = q))
      (sims.insertionSort descSimilarity) :=
    List.sublist_insertionSort hpw (List.filter_sublist sims)
  have hsub2 : List.Sublist
      ((sims.filter (fun d => d.similarity_score = q)).filter
        (fun d => d.similarity_score = q))
      ((sims.insertionSort descSimilarity).filter
        (fun d => d.similarity_score = q)) :=
    hsub.filter _
  have hself : (sims.filter (fun d => d.similarity_score = q)).filter
        (fun d => d.similarity_score = q)
      = sims.filter (fun d => d.similarity_score = q) :=
    List.filter_eq_self.mpr fun a ha => (List.mem_filter.mp ha).2
  rw [hself] at hsub2
  have hperm : List.Perm
      ((sims.insertionSort descSimilarity).filter
        (fun d => d.similarity_score = q))
      (sims.filter (fun d => d.similarity_score = q)) :=
    (List.perm_insertionSort descSimilarity sims).filter _
  exact (hsub2.eq_of_length hperm.length_eq.symm).symm

/-! ### The claims -/

/-- C1: every recommendation list produced by the job is the group's candidate
dictionaries stable-sorted by descending similarity score (ties keep the
original emission order), projected to exploration ids and truncated to at
most the configured maximum of `MAX_RECOMMENDATIONS = 10` entries. -/
theorem recommendations_sorted_and_sliced
    (s : ExpSummaryModel → ExpSummaryModel → ℚ)
    (models : List ExpSummaryModel) (r : ExplorationRecommendationsModel)
    (hr : r ∈ runModels s models) :
    r.recommended_exploration_ids.length ≤ MAX_RECOMMENDATIONS ∧
    ∃ sims, (r.id, sims) ∈ groupByKey (allSimilarityPairs s models) ∧
      ∃ sorted : List SimilarityDict,
        sorted.Perm sims ∧
        sorted.Pairwise
          (fun a b => b.similarity_score ≤ a.similarity_score) ∧
        (∀ q : ℚ, sorted.filter (fun d => d.similarity_score = q)
          = sims.filter (fun d => d.similarity_score = q)) ∧
        r.recommended_exploration_ids
          = (sorted.map (fun d => d.exp_id)).take MAX_RECOMMENDATIONS := by
  obtain ⟨g, hg, rfl⟩ := mem_runModelsWith.mp hr
  refine ⟨?_, g.2, by simpa using hg,
    g.2.insertionSort descSimilarity,
    List.perm_insertionSort descSimilarity g.2, ?_,
    fun q => insertionSort_filter_score g.2 q, rfl⟩
  · exact List.length_take_le MAX_RECOMMENDATIONS _
  · exact (List.sorted_insertionSort descSimilarity g.2).imp fun h => h

/-- Witness for C1: on the concrete scenario snapshot, the record for `A` is
produced and its list respects the length bound. -/
theorem recommendations_sorted_and_sliced_witness :
    ∃ r ∈ runModels scoreABCD itemsABCD,
      r.recommended_exploration_ids.length ≤ MAX_RECOMMENDATIONS :=
  ⟨{ id := "A", recommended_exploration_ids := ["D", "B"] }, by decide,
    (recommendations_sorted_and_sliced scoreABCD itemsABCD _ (by decide)).1⟩

/-- C3: no produced recommendation record ever contains its own exploration
id, regardless of the scorer. -/
theorem no_self_recommendation
    (s : ExpSummaryModel → ExpSummaryModel → ℚ)
    (models : List ExpSummaryModel) (r : ExplorationRecommendationsModel)
    (hr : r ∈ runModels s models) :
    r.id ∉ r.recommended_exploration_ids := by
  obtain ⟨g, hg, rfl⟩ := mem_runModelsWith.mp hr
  intro hmem
  simp only [sortAndSliceSimilaritiesWith] at hmem
  have hmem' := List.mem_of_mem_take hmem
  obtain ⟨d, hd, hde⟩ := List.mem_map.mp hmem'
  rw [List.mem_insertionSort] at hd
  have hpair : (g.1, d) ∈ allSimilarityPairs s models :=
    mem_of_mem_groupByKey (by simpa using hg) d hd
  obtain ⟨ref, -, hp⟩ := mem_blocks hpair
  have hfst : g.1 = ref.id := process_fst hp
  obtain ⟨c, -, hcne, -, hcid, -⟩ := process_snd_mem hp
  exact hcne ((hcid.symm.trans hde).trans hfst)

/-- Witness for C3: on the concrete scenario snapshot, some record exists and
omits its own id. -/
theorem no_self_recommendation_witness :
    ∃ r ∈ runModels scoreABCD itemsABCD,
      r.id ∉ r.recommended_exploration_ids :=
  ⟨{ id := "A", recommended_exploration_ids := ["D", "B"] }, by decide,
    no_self_recommendation scoreABCD itemsABCD _ (by decide)⟩

/-- Ids sorted into the full candidate list are exactly the emitted
dictionaries' exploration ids. -/
theorem mem_fullSortedCandidateIds_iff
    {s : ExpSummaryModel → ExpSummaryModel → ℚ}
    {models : List ExpSummaryModel} {ref : ExpSummaryModel} {x : String} :
    x ∈ fullSortedCandidateIds s models ref ↔
      ∃ d ∈ (ComputeSimilarity.process s ref models).map Prod.snd,
        d.exp_id = x := by
  unfold fullSortedCandidateIds
  simp [List.mem_map, List.mem_insertionSort]

/-- With pairwise-distinct ids, any produced record keyed by a model's id
carries exactly that model's sorted-and-sliced candidate list. -/
theorem record_list_eq {s : ExpSummaryModel → ExpSummaryModel → ℚ}
    {models : List ExpSummaryModel} {ref : ExpSummaryModel}
    {r : ExplorationRecommendationsModel}
    (hnd : (models.map (·.id)).Nodup) (href : ref ∈ models)
    (hr : r ∈ runModels s models) (hid : r.id = ref.id) :
    r.recommended_exploration_ids =
      (fullSortedCandidateIds s models ref).take MAX_RECOMMENDATIONS := by
  obtain ⟨g, hg, rfl⟩ := mem_runModelsWith.mp hr
  rw [groupByKey_allSimilarityPairs s models hnd] at hg
  obtain ⟨m, hm, rfl⟩ := List.mem_map.mp hg
  have hmm : m ∈ models := List.mem_of_mem_filter hm
  have hmref : m = ref := List.inj_on_of_nodup_map hnd hmm href hid
  subst hmref
  simp only [sortAndSliceSimilaritiesWith, fullSortedCandidateIds,
    List.map_take]

/-- C2: with pairwise-distinct ids, a candidate scoring below the threshold
`3.0` never appears in the reference's recommendation list; a candidate
scoring at or above the threshold appears in the reference's full
descending-sorted candidate list, and the reference's recommendation list is
exactly the `MAX_RECOMMENDATIONS`-prefix of that list, so the candidate
appears in it unless dropped by the top-K truncation. -/
theorem threshold_filters_candidates
    (s : ExpSummaryModel → ExpSummaryModel → ℚ)
    (models : List ExpSummaryModel) (ref c : ExpSummaryModel)
    (hnd : (models.map (·.id)).Nodup) (href : ref ∈ models)
    (hc : c ∈ models) (hne : c.id ≠ ref.id) :
    (s ref c < SIMILARITY_SCORE_THRESHOLD →
      ∀ r ∈ runModels s models, r.id = ref.id →
        c.id ∉ r.recommended_exploration_ids) ∧
    (SIMILARITY_SCORE_THRESHOLD ≤ s ref c →
      c.id ∈ fullSortedCandidateIds s models ref ∧
      ∃ r ∈ runModels s models, r.id = ref.id ∧
        r.recommended_exploration_ids =
          (fullSortedCandidateIds s models ref).take MAX_RECOMMENDATIONS) := by
  constructor
  · intro hlt r hr hid hmem
    rw [record_list_eq hnd href hr hid] at hmem
    have hfull := List.mem_of_mem_take hmem
    obtain ⟨d, hd, hdx⟩ := mem_fullSortedCandidateIds_iff.mp hfull
    obtain ⟨p, hp, rfl⟩ := List.mem_map.mp hd
    obtain ⟨c', hc', -, hT, hcid, -⟩ := process_snd_mem hp
    have hcc : c' = c :=
      List.inj_on_of_nodup_map hnd hc' hc (hcid ▸ hdx)
    exact absurd hT (not_le.mpr (hcc ▸ hlt))
  · intro hT
    have hcFull : c.id ∈ fullSortedCandidateIds s models ref := by
      refine mem_fullSortedCandidateIds_iff.mpr
        ⟨{ similarity_score := s ref c, exp_id := c.id }, ?_, rfl⟩
      refine List.mem_map.mpr ⟨(ref.id,
        { similarity_score := s ref c, exp_id := c.id }), ?_, rfl⟩
      rw [process_eq]
      exact List.mem_map.mpr ⟨c, List.mem_filter.mpr ⟨hc, by simp [hne, hT]⟩,
        rfl⟩
    refine ⟨hcFull, ?_⟩
    have hproc : ComputeSimilarity.process s ref models ≠ [] := by
      intro hnil
      simp [fullSortedCandidateIds, hnil, List.insertionSort] at hcFull
    refine ⟨ComputeExplorationRecommendationsJob.create_recommendation ref.id
      ((fullSortedCandidateIds s models ref).take MAX_RECOMMENDATIONS),
      ?_, rfl, rfl⟩
    refine mem_runModelsWith.mpr
      ⟨(ref.id, (ComputeSimilarity.process s ref models).map Prod.snd), ?_, ?_⟩
    · rw [groupByKey_allSimilarityPairs s models hnd]
      refine List.mem_map.mpr ⟨ref, List.mem_filter.mpr ⟨href, ?_⟩, rfl⟩
      simp [List.isEmpty_iff, hproc]
    · simp only [sortAndSliceSimilaritiesWith, fullSortedCandidateIds,
        List.map_take]
      rfl

/-- Witness for C2: on the concrete scenario snapshot, candidate `C` (score 2,
below threshold) is excluded from `A`'s list and candidate `D` (score 6)
appears. -/
theorem threshold_filters_candidates_witness :
    ((2 : ℚ) < SIMILARITY_SCORE_THRESHOLD →
      ∀ r ∈ runModels scoreABCD itemsABCD, r.id = "A" →
        "C" ∉ r.recommended_exploration_ids) ∧
    (SIMILARITY_SCORE_THRESHOLD ≤ (6 : ℚ) →
      "D" ∈ fullSortedCandidateIds scoreABCD itemsABCD
        { id := "A", data := 0 }) := by
  have h := threshold_filters_candidates scoreABCD itemsABCD
    { id := "A", data := 0 } { id := "C", data := 2 }
    (by decide) (by decide) (by decide) (by decide)
  have h2 := threshold_filters_candidates scoreABCD itemsABCD
    { id := "A", data := 0 } { id := "D", data := 3 }
    (by decide) (by decide) (by decide) (by decide)
  exact ⟨fun hlt => h.1 (by decide), fun hT => (h2.2 (by decide)).1⟩

/-- The nonemptiness test the grouping stage applies to a comparison output
coincides with the existence of a qualifying candidate. -/
theorem process_nonempty_iff_qualifying
    (s : ExpSummaryModel → ExpSummaryModel → ℚ)
    (models : List ExpSummaryModel) :
    ∀ ref ∈ models,
      (!(ComputeSimilarity.process s ref models).isEmpty)
        = decide (∃ c ∈ models, c.id ≠ ref.id ∧
            SIMILARITY_SCORE_THRESHOLD ≤ s ref c) := by
  intro ref _
  by_cases h : ∃ c ∈ models, c.id ≠ ref.id ∧
      SIMILARITY_SCORE_THRESHOLD ≤ s ref c
  · have hne : ComputeSimilarity.process s ref models ≠ [] := by
      obtain ⟨c, hc, hcne, hT⟩ := h
      intro hnil
      exact absurd ((process_eq_nil_iff s ref models).mp hnil c hc hcne)
        (not_lt.mpr hT)
    simp [List.isEmpty_iff, hne, h]
  · have hnil : ComputeSimilarity.process s ref models = [] := by
      rw [process_eq_nil_iff]
      intro c hc hcne
      by_contra hge
      exact h ⟨c, hc, hcne, not_lt.mp hge⟩
    simp [List.isEmpty_iff, hnil, h]

/-- Closed form of the produced model collection under distinct ids. -/
theorem runModels_eq (s : ExpSummaryModel → ExpSummaryModel → ℚ)
    (models : List ExpSummaryModel) (hnd : (models.map (·.id)).Nodup) :
    runModels s models
      = (models.filter fun ref =>
          !(ComputeSimilarity.process s ref models).isEmpty).map
          fun ref =>
            ComputeExplorationRecommendationsJob.create_recommendation ref.id
              (sortAndSliceSimilaritiesWith MAX_RECOMMENDATIONS
                ((ComputeSimilarity.process s ref models).map Prod.snd)) := by
  unfold runModels runModelsWith
  rw [groupByKey_allSimilarityPairs s models hnd, List.map_map, List.map_map]
  rfl

/-- C4: with pairwise-distinct ids, the job produces exactly one record per
model having at least one qualifying candidate (distinct id, score at or
above the threshold), keyed by that model's id and in model order; a model
with no qualifying candidate yields no record, and no produced record carries
an empty list. -/
theorem one_record_per_qualifying_model
    (s : ExpSummaryModel → ExpSummaryModel → ℚ)
    (models : List ExpSummaryModel) (hnd : (models.map (·.id)).Nodup) :
    (runModels s models).map (·.id)
      = (models.filter fun ref => decide (∃ c ∈ models, c.id ≠ ref.id ∧
          SIMILARITY_SCORE_THRESHOLD ≤ s ref c)).map (·.id) ∧
    ∀ r ∈ runModels s models, r.recommended_exploration_ids ≠ [] := by
  constructor
  · rw [runModels_eq s models hnd, List.map_map,
      List.filter_congr (process_nonempty_iff_qualifying s models)]
    rfl
  · intro r hr
    rw [runModels_eq s models hnd] at hr
    obtain ⟨ref, href, rfl⟩ := List.mem_map.mp hr
    have hne : ComputeSimilarity.process s ref models ≠ [] := by
      have hf := List.of_mem_filter href
      simpa [List.isEmpty_iff] using hf
    have hp : 0 < (ComputeSimilarity.process s ref models).length :=
      List.length_pos.mpr hne
    have hlen : 0 < (sortAndSliceSimilaritiesWith MAX_RECOMMENDATIONS
        ((ComputeSimilarity.process s ref models).map Prod.snd)).length := by
      simp only [sortAndSliceSimilaritiesWith, List.length_take,
        List.length_map, List.length_insertionSort, MAX_RECOMMENDATIONS]
      omega
    exact List.ne_nil_of_length_pos hlen

/-- Witness for C4: on the concrete scenario snapshot, the produced record
ids match the qualifying models (`A`, `B`, `D`; `C` qualifies nowhere). -/
theorem one_record_per_qualifying_model_witness :
    (runModels scoreABCD itemsABCD).map (·.id)
      = (itemsABCD.filter fun ref => decide (∃ c ∈ itemsABCD,
          c.id ≠ ref.id ∧
          SIMILARITY_SCORE_THRESHOLD ≤ scoreABCD ref c)).map (·.id) :=
  (one_record_per_qualifying_model scoreABCD itemsABCD (by decide)).1

/-- C5: the job's reported result is exactly one of a propagated scorer
failure, the empty collection when zero records are produced, or the single
`SUCCESS n` outcome carrying the positive record count `n`. -/
theorem job_result_shape {ε : Type}
    (sE : ExpSummaryModel → ExpSummaryModel → Except ε ℚ)
    (models : List ExpSummaryModel) :
    (∃ e, runE sE models = Except.error e) ∨
    (∃ recs, runModelsE sE models = Except.ok recs ∧
      ((recs.length = 0 ∧ runE sE models = Except.ok []) ∨
        (0 < recs.length ∧ runE sE models = Except.ok
          [{ stdout := "SUCCESS " ++ toString recs.length }]))) := by
  cases hm : runModelsE sE models with
  | error e => exact Or.inl ⟨e, by simp [runE, hm]⟩
  | ok recs =>
    refine Or.inr ⟨recs, rfl, ?_⟩
    rcases Nat.eq_zero_or_pos recs.length with h0 | hpos
    · exact Or.inl ⟨h0, by simp [runE, hm, h0]⟩
    · refine Or.inr ⟨hpos, ?_⟩
      simp [runE, hm, List.filter_cons, hpos]

/-- C6: on the snapshot `{A, B, C, D}` with `score(A,B)=5`, `score(A,C)=2`,
`score(A,D)=6` and every other pairwise score below the threshold, with the
threshold `3.0` and top-K `2`, the record produced for `A` is exactly
`[D, B]` (`D` before `B` since `6 > 5`, `C` excluded since `2 < 3.0`). -/
theorem concrete_scenario_record_for_A :
    (runModelsWith 2 scoreABCD itemsABCD).find? (fun r => r.id == "A")
      = some { id := "A", recommended_exploration_ids := ["D", "B"] } := by
  decide

/-- Pointwise description of the bulk upsert: the last produced model with a
given id wins; keys no produced model carries keep their prior value. -/
theorem putModels_apply :
    ∀ (ms : List ExplorationRecommendationsModel)
      (st : String → Option (List String)) (k : String),
      putModels ms st k =
        (match ms.reverse.find? (fun m => m.id == k) with
          | some m => some m.recommended_exploration_ids
          | none => st k)
  | [], _, _ => rfl
  | m :: ms, st, k => by
    have ih := putModels_apply ms (m.put st) k
    simp only [putModels, List.foldl_cons] at ih ⊢
    rw [ih]
    simp only [List.reverse_cons, List.find?_append]
    cases hms : ms.reverse.find? (fun m => m.id == k) with
    | some m' => rfl
    | none =>
      simp only [Option.none_orElse]
      by_cases hk : m.id = k
      · simp [List.find?, hk, ExplorationRecommendationsModel.put]
      · have hbeq : (m.id == k) = false := by
          simpa using hk
        have hk' : ¬k = m.id := fun h => hk h.symm
        simp [List.find?, hbeq, ExplorationRecommendationsModel.put, hk']

/-- Writing a collection of recommendation models twice leaves the store in
the same state as writing it once. -/
theorem putModels_idem (ms : List ExplorationRecommendationsModel)
    (st : String → Option (List String)) :
    putModels ms (putModels ms st) = putModels ms st := by
  funext k
  rw [putModels_apply, putModels_apply]
  cases h : ms.reverse.find? (fun m => m.id == k) with
  | some m => simp [h]
  | none => simp [h]

/-- C7: the job is deterministic on an unchanged snapshot with a consistent
scorer — it recomputes the identical record collection — and persisting that
collection twice upserts to the same datastore state as persisting it
once. -/
theorem job_idempotent (s : ExpSummaryModel → ExpSummaryModel → ℚ)
    (models : List ExpSummaryModel)
    (store : String → Option (List String)) :
    runModels s models = runModels s models ∧
    putModels (runModels s models) (putModels (runModels s models) store)
      = putModels (runModels s models) store :=
  ⟨rfl, putModels_idem (runModels s models) store⟩

/-- A scorer exception on any distinct-id pair reached by the comparison loop
aborts the loop with an error: nothing catches it. -/
theorem processE_error_of_mem {ε : Type}
    {sE : ExpSummaryModel → ExpSummaryModel → Except ε ℚ}
    {ref c : ExpSummaryModel} :
    ∀ {l : List ExpSummaryModel}, c ∈ l → c.id ≠ ref.id →
      (∃ e, sE ref c = Except.error e) →
      ∃ e₁, ComputeSimilarity.processE sE ref l = Except.error e₁ := by
  intro l
  induction l with
  | nil => intro hc; exact absurd hc (List.not_mem_nil c)
  | cons h t ih =>
    intro hc hne herr
    by_cases hh : h.id = ref.id
    · have hct : c ∈ t := by
        rcases List.mem_cons.mp hc with hch | hct
        · exact absurd (hch ▸ hne) (fun hx => hx hh)
        · exact hct
      obtain ⟨e₁, he₁⟩ := ih hct hne herr
      exact ⟨e₁, by simp [ComputeSimilarity.processE, hh, he₁]⟩
    · cases hse : sE ref h with
      | error e => exact ⟨e, by simp [ComputeSimilarity.processE, hh, hse]⟩
      | ok q =>
        have hct : c ∈ t := by
          rcases List.mem_cons.mp hc with hch | hct
          · obtain ⟨e, he⟩ := herr
            rw [hch, hse] at he
            exact absurd he (by simp)
          · exact hct
        obtain ⟨e₁, he₁⟩ := ih hct hne herr
        exact ⟨e₁, by simp [ComputeSimilarity.processE, hh, hse, he₁]⟩

/-- An error in any element's step aborts the effectful map with an error. -/
theorem mapExcept_error_of_mem {ε α β : Type} {f : α → Except ε β} :
    ∀ {l : List α} {x : α}, x ∈ l → (∃ e, f x = Except.error e) →
      ∃ e₁, mapExcept f l = Except.error e₁ := by
  intro l
  induction l with
  | nil => intro x hx; exact absurd hx (List.not_mem_nil x)
  | cons y t ih =>
    intro x hx herr
    cases hfy : f y with
    | error e => exact ⟨e, by simp [mapExcept, hfy]⟩
    | ok b =>
      have hxt : x ∈ t := by
        rcases List.mem_cons.mp hx with hxy | hxt
        · obtain ⟨e, he⟩ := herr
          rw [hxy, hfy] at he
          exact absurd he (by simp)
        · exact hxt
      obtain ⟨e₁, he₁⟩ := ih hxt herr
      exact ⟨e₁, by simp [mapExcept, hfy, he₁]⟩

/-- C8: if the scorer raises for some pair of distinct models in the
snapshot, nothing in the pipeline catches it: the comparison step for that
reference model errors, the model-production stage errors, and the whole job
run errors. -/
theorem scorer_exception_propagates {ε : Type}
    (sE : ExpSummaryModel → ExpSummaryModel → Except ε ℚ)
    (models : List ExpSummaryModel) (ref c : ExpSummaryModel)
    (href : ref ∈ models) (hc : c ∈ models) (hne : c.id ≠ ref.id)
    (e : ε) (herr : sE ref c = Except.error e) :
    (∃ e₁, ComputeSimilarity.processE sE ref models = Except.error e₁) ∧
    (∃ e₂, runModelsE sE models = Except.error e₂) ∧
    (∃ e₃, runE sE models = Except.error e₃) := by
  have h1 := processE_error_of_mem hc hne ⟨e, herr⟩
  have h2 : ∃ e₂, mapExcept
      (fun r => ComputeSimilarity.processE sE r models) models
        = Except.error e₂ :=
    mapExcept_error_of_mem href h1
  obtain ⟨e₂, he₂⟩ := h2
  refine ⟨h1, ⟨e₂, by simp [runModelsE, he₂]⟩, ⟨e₂, ?_⟩⟩
  simp [runE, runModelsE, he₂]

/-- Witness for C8: the scorer raising on the pair `(A, B)` makes the whole
concrete job run fail. -/
theorem scorer_exception_propagates_witness :
    ({ id := "B", data := 1 } : ExpSummaryModel) ∈ itemsABCD ∧
    ∃ e₃, runE scoreRaisingOnAB itemsABCD = Except.error e₃ :=
  ⟨by decide,
    (scorer_exception_propagates scoreRaisingOnAB itemsABCD
      { id := "A", data := 0 } { id := "B", data := 1 }
      (by decide) (by decide) (by decide) "scorer raised" rfl).2.2⟩

/-- C9: the pipeline's output depends on the scorer only through its values
at pairs of models with distinct ids — two scorers agreeing off the diagonal
yield identical comparison output and identical records.  In particular the
self-comparison is skipped before the scorer would be called, so the scorer
is never invoked with a reference and candidate sharing an id. -/
theorem scorer_never_invoked_on_same_id
    (s₁ s₂ : ExpSummaryModel → ExpSummaryModel → ℚ)
    (h : ∀ a b, a.id ≠ b.id → s₁ a b = s₂ a b)
    (models : List ExpSummaryModel) :
    (∀ ref l, ComputeSimilarity.process s₁ ref l
      = ComputeSimilarity.process s₂ ref l) ∧
    runModels s₁ models = runModels s₂ models := by
  have hproc : ∀ ref l, ComputeSimilarity.process s₁ ref l
      = ComputeSimilarity.process s₂ ref l := by
    intro ref l
    induction l with
    | nil => rfl
    | cons c t ih =>
      simp only [ComputeSimilarity.process, List.filterMap_cons] at ih ⊢
      by_cases hcid : c.id = ref.id
      · simp only [if_pos hcid]
        exact ih
      · have hs : s₁ ref c = s₂ ref c := h ref c fun hx => hcid hx.symm
        simp only [if_neg hcid, hs, ih]
  refine ⟨hproc, ?_⟩
  have hpairs : allSimilarityPairs s₁ models = allSimilarityPairs s₂ models :=
    congrArg List.flatten
      (List.map_congr_left fun ref _ => hproc ref models)
  unfold runModels runModelsWith
  rw [hpairs]

/-- Witness for C9: a scorer and its diagonal-zeroed variant produce the same
records on the concrete snapshot. -/
theorem scorer_never_invoked_on_same_id_witness :
    (∀ a b : ExpSummaryModel, a.id ≠ b.id →
      (fun _ _ => (5 : ℚ)) a b
        = (fun a b : ExpSummaryModel =>
            if a.id = b.id then (0 : ℚ) else 5) a b) ∧
    runModels (fun _ _ => (5 : ℚ)) itemsABCD
      = runModels (fun a b : ExpSummaryModel =>
          if a.id = b.id then (0 : ℚ) else 5) itemsABCD := by
  have h : ∀ a b : ExpSummaryModel, a.id ≠ b.id →
      (fun _ _ => (5 : ℚ)) a b
        = (fun a b : ExpSummaryModel =>
            if a.id = b.id then (0 : ℚ) else 5) a b := by
    intro a b hab
    simp [hab]
  exact ⟨h, (scorer_never_invoked_on_same_id _ _ h itemsABCD).2⟩

/-- The emitted exploration ids are the ids of the qualifying candidates, in
input order. -/
theorem process_exp_ids (s : ExpSummaryModel → ExpSummaryModel → ℚ)
    (ref : ExpSummaryModel) (l : List ExpSummaryModel) :
    ((ComputeSimilarity.process s ref l).map Prod.snd).map
        (fun d => d.exp_id)
      = (l.filter fun c => decide (c.id ≠ ref.id ∧
          SIMILARITY_SCORE_THRESHOLD ≤ s ref c)).map (·.id) := by
  rw [process_eq, List.map_map, List.map_map]
  rfl

/-- C10: every id in a produced recommendation list is the id of some model
in the snapshot other than the record's own; and when the snapshot's ids are
pairwise distinct the recommendation list holds no duplicates. -/
theorem recommended_ids_from_snapshot
    (s : ExpSummaryModel → ExpSummaryModel → ℚ)
    (models : List ExpSummaryModel) (r : ExplorationRecommendationsModel)
    (hr : r ∈ runModels s models) :
    (∀ x ∈ r.recommended_exploration_ids,
      x ≠ r.id ∧ ∃ m ∈ models, m.id = x) ∧
    ((models.map (·.id)).Nodup → r.recommended_exploration_ids.Nodup) := by
  constructor
  · intro x hx
    obtain ⟨g, hg, hre⟩ := mem_runModelsWith.mp hr
    rw [hre] at hx
    simp only [sortAndSliceSimilaritiesWith] at hx
    have hx' := List.mem_of_mem_take hx
    obtain ⟨d, hd, hde⟩ := List.mem_map.mp hx'
    rw [List.mem_insertionSort] at hd
    have hpair : (g.1, d) ∈ allSimilarityPairs s models :=
      mem_of_mem_groupByKey (by simpa using hg) d hd
    obtain ⟨ref, -, hp⟩ := mem_blocks hpair
    have hfst : g.1 = ref.id := process_fst hp
    obtain ⟨c, hcm, hcne, -, hcid, -⟩ := process_snd_mem hp
    constructor
    · intro hxr
      apply hcne
      calc c.id = d.exp_id := hcid.symm
        _ = x := hde
        _ = r.id := hxr
        _ = g.1 := by rw [hre]
        _ = ref.id := hfst
    · exact ⟨c, hcm, hcid.symm.trans hde⟩
  · intro hnd
    rw [runModels_eq s models hnd] at hr
    obtain ⟨ref, href, rfl⟩ := List.mem_map.mp hr
    have h1 : (((ComputeSimilarity.process s ref models).map Prod.snd).map
        (fun d => d.exp_id)).Nodup := by
      rw [process_exp_ids]
      exact ((List.filter_sublist models).map (·.id)).nodup hnd
    have h2 : ((((ComputeSimilarity.process s ref models).map
        Prod.snd).insertionSort descSimilarity).map
          (fun d => d.exp_id)).Nodup :=
      ((List.perm_insertionSort descSimilarity _).map
        (fun d => d.exp_id)).nodup_iff.mpr h1
    exact (List.take_sublist _ _).nodup h2

/-- Witness for C10: on the concrete snapshot, the record for `A` draws its
ids from the other items and has no duplicates. -/
theorem recommended_ids_from_snapshot_witness :
    ({ id := "A", recommended_exploration_ids := ["D", "B"] }
        : ExplorationRecommendationsModel) ∈ runModels scoreABCD itemsABCD ∧
    (["D", "B"] : List String).Nodup := by
  have h := recommended_ids_from_snapshot scoreABCD itemsABCD
    { id := "A", recommended_exploration_ids := ["D", "B"] } (by decide)
  exact ⟨by decide, h.2 (by decide)⟩

end Oppia
